import Mathlib

/-!
Verification development for the license and usage-integrity subsystem of the
DESIgui repository (src/license_manager_core.py, src/data_encryptor.py,
src/usage_tracker.py, src/integrity_verifier.py, src/import_report_dialog.py,
src/license_manager.py).

Python strings are modelled as `List Char` (Lean `Char` is a Unicode scalar
value, as in Python).  Machine integers do not occur; the hashes (MD5, SHA-256)
are implemented for real over byte lists (`List Nat`, each < 256) with explicit
`% 2 ^ 32` arithmetic.  The Fernet authenticated cipher (an external library,
not part of the repository) is modelled as an ideal authenticated encryption
scheme whose key is determined by the PBKDF2 salt that the repository derives
from a seed: decryption succeeds exactly for the salt under which the blob was
produced, and fails otherwise, which is the documented behaviour of an
authenticated token.  Base64 transport of a Fernet token never yields valid
UTF-8 JSON, so the `base64` fallback paths fail on Fernet blobs in the model.
-/

namespace DESI

/-- Convert a literal Lean string to the `List Char` string model. -/
def chars (s : String) : List Char := s.data

/-- Python lexicographic string-`<=` by code points (used by `sort_keys`). -/
def strLe (u v : List Char) : Bool :=
  match u, v with
  | [], _ => true
  | _ :: _, [] => false
  | x :: xs, y :: ys =>
      if x.toNat < y.toNat then true
      else if y.toNat < x.toNat then false
      else strLe xs ys

/-- Join a list of strings with a separator. -/
def joinSep (sep : List Char) : List (List Char) → List Char
  | [] => []
  | [x] => x
  | x :: xs => x ++ sep ++ joinSep sep xs

/-- First `some` produced by `f` along a list (Python loop with `continue`). -/
def firstSome (f : α → Option β) : List α → Option β
  | [] => none
  | x :: xs =>
      match f x with
      | some y => some y
      | none => firstSome f xs

/-- `"s".split('-')` from Python: split a string at every dash. -/
def splitDash : List Char → List (List Char)
  | [] => [[]]
  | c :: cs =>
      if c = '-' then [] :: splitDash cs
      else
        match splitDash cs with
        | s :: rest => (c :: s) :: rest
        | [] => [[c]]

/-! ## Byte-level helpers shared by MD5 and SHA-256 -/

/-- 32-bit truncation. -/
def m32 (x : Nat) : Nat := x % 4294967296

/-- 32-bit left rotation. -/
def rotl32 (x s : Nat) : Nat :=
  m32 (Nat.lor (m32 (Nat.shiftLeft x s)) (Nat.shiftRight x (32 - s)))

/-- 32-bit right rotation. -/
def rotr32 (x s : Nat) : Nat :=
  m32 (Nat.lor (Nat.shiftRight x s) (m32 (Nat.shiftLeft x (32 - s))))

/-- Bitwise complement on 32 bits. -/
def not32 (x : Nat) : Nat := Nat.xor x 4294967295

/-- Little-endian 4-byte encoding of a 32-bit word. -/
def le4 (x : Nat) : List Nat :=
  [x % 256, x / 256 % 256, x / 65536 % 256, x / 16777216 % 256]

/-- Big-endian 4-byte encoding of a 32-bit word. -/
def be4 (x : Nat) : List Nat :=
  [x / 16777216 % 256, x / 65536 % 256, x / 256 % 256, x % 256]

/-- Big-endian 8-byte encoding of a 64-bit value. -/
def be8 (x : Nat) : List Nat :=
  be4 (x / 4294967296 % 4294967296) ++ be4 (x % 4294967296)

/-- Little-endian 8-byte encoding of a 64-bit value. -/
def le8 (x : Nat) : List Nat :=
  le4 (x % 4294967296) ++ le4 (x / 4294967296 % 4294967296)

/-- Lower-case hex digit table. -/
def hexDig (n : Nat) : Char := (chars "0123456789abcdef").getD n '0'

/-- Lower-case hex rendering of a byte list (Python `hexdigest()`). -/
def bytesToHex : List Nat → List Char
  | [] => []
  | b :: bs => hexDig (b / 16) :: hexDig (b % 16) :: bytesToHex bs

/-- UTF-8 encoding of one character (Python `str.encode()`). -/
def utf8Char (c : Char) : List Nat :=
  let n := c.toNat
  if n < 128 then [n]
  else if n < 2048 then [192 + n / 64, 128 + n % 64]
  else if n < 65536 then [224 + n / 4096, 128 + n / 64 % 64, 128 + n % 64]
  else [240 + n / 262144, 128 + n / 4096 % 64, 128 + n / 64 % 64, 128 + n % 64]

/-- UTF-8 encoding of a string. -/
def utf8 (s : List Char) : List Nat := s.flatMap utf8Char

/-- Split a byte list into successive 64-byte blocks (fuel-driven). -/
def chunks64Aux : Nat → List Nat → List (List Nat)
  | 0, _ => []
  | _, [] => []
  | fuel + 1, xs => xs.take 64 :: chunks64Aux fuel (xs.drop 64)

/-- All 64-byte blocks of a padded message. -/
def chunks64 (xs : List Nat) : List (List Nat) := chunks64Aux xs.length xs

/-- Read the `i`-th little-endian 32-bit word of a 64-byte block. -/
def wordLE (blk : List Nat) (i : Nat) : Nat :=
  blk.getD (4 * i) 0 + 256 * blk.getD (4 * i + 1) 0 +
    65536 * blk.getD (4 * i + 2) 0 + 16777216 * blk.getD (4 * i + 3) 0

/-- Read the `i`-th big-endian 32-bit word of a 64-byte block. -/
def wordBE (blk : List Nat) (i : Nat) : Nat :=
  16777216 * blk.getD (4 * i) 0 + 65536 * blk.getD (4 * i + 1) 0 +
    256 * blk.getD (4 * i + 2) 0 + blk.getD (4 * i + 3) 0

/-! ## MD5 (RFC 1321), used by the repository for the license checksum and
for `sample_hash`. -/

/-- The 64 MD5 sine-table constants, `⌊|sin(i+1)| · 2³²⌋`, in decimal. -/
def md5K : List Nat :=
  [3614090360, 3905402710, 606105819, 3250441966, 4118548399, 1200080426,
   2821735955, 4249261313, 1770035416, 2336552879, 4294925233, 2304563134,
   1804603682, 4254626195, 2792965006, 1236535329, 4129170786, 3225465664,
   643717713, 3921069994, 3593408605, 38016083, 3634488961, 3889429448,
   568446438, 3275163606, 4107603335, 1163531501, 2850285829, 4243563512,
   1735328473, 2368359562, 4294588738, 2272392833, 1839030562, 4259657740,
   2763975236, 1272893353, 4139469664, 3200236656, 681279174, 3936430074,
   3572445317, 76029189, 3654602809, 3873151461, 530742520, 3299628645,
   4096336452, 1126891415, 2878612391, 4237533241, 1700485571, 2399980690,
   4293915773, 2240044497, 1873313359, 4264355552, 2734768916, 1309151649,
   4149444226, 3174756917, 718787259, 3951481745]

/-- The 64 MD5 per-round left-rotation amounts. -/
def md5S : List Nat :=
  [7, 12, 17, 22, 7, 12, 17, 22, 7, 12, 17, 22, 7, 12, 17, 22,
   5, 9, 14, 20, 5, 9, 14, 20, 5, 9, 14, 20, 5, 9, 14, 20,
   4, 11, 16, 23, 4, 11, 16, 23, 4, 11, 16, 23, 4, 11, 16, 23,
   6, 10, 15, 21, 6, 10, 15, 21, 6, 10, 15, 21, 6, 10, 15, 21]

/-- MD5 working state. -/
structure MD5St where
  a : Nat
  b : Nat
  c : Nat
  d : Nat

/-- One MD5 round step at index `i` on block `blk`. -/
def md5Step (blk : List Nat) (i : Nat) (st : MD5St) : MD5St :=
  let f :=
    if i < 16 then Nat.lor (Nat.land st.b st.c) (Nat.land (not32 st.b) st.d)
    else if i < 32 then Nat.lor (Nat.land st.d st.b) (Nat.land (not32 st.d) st.c)
    else if i < 48 then Nat.xor (Nat.xor st.b st.c) st.d
    else Nat.xor st.c (Nat.lor st.b (not32 st.d))
  let g :=
    if i < 16 then i
    else if i < 32 then (5 * i + 1) % 16
    else if i < 48 then (3 * i + 5) % 16
    else (7 * i) % 16
  let tmp := m32 (st.a + f + md5K.getD i 0 + wordLE blk g)
  let nb := m32 (st.b + rotl32 tmp (md5S.getD i 0))
  ⟨st.d, nb, st.b, st.c⟩

/-- Run MD5 rounds `i, i+1, …, 63` (fuel-driven from 64). -/
def md5Rounds (blk : List Nat) : Nat → Nat → MD5St → MD5St
  | 0, _, st => st
  | fuel + 1, i, st => md5Rounds blk fuel (i + 1) (md5Step blk i st)

/-- Process one 64-byte block. -/
def md5Block (st : MD5St) (blk : List Nat) : MD5St :=
  let r := md5Rounds blk 64 0 st
  ⟨m32 (st.a + r.a), m32 (st.b + r.b), m32 (st.c + r.c), m32 (st.d + r.d)⟩

/-- MD5 padding: `0x80`, zeros to 56 mod 64, then the 64-bit bit length LE. -/
def md5Pad (msg : List Nat) : List Nat :=
  let padLen := (119 - msg.length % 64) % 64 + 1
  msg ++ (128 :: List.replicate (padLen - 1) 0) ++ le8 (8 * msg.length)

/-- MD5 digest of a byte string, as 16 bytes. -/
def md5 (msg : List Nat) : List Nat :=
  let init : MD5St := ⟨1732584193, 4023233417, 2562383102, 271733878⟩
  let fin := (chunks64 (md5Pad msg)).foldl md5Block init
  le4 fin.a ++ le4 fin.b ++ le4 fin.c ++ le4 fin.d

/-- `hashlib.md5(x).hexdigest()`. -/
def md5hex (msg : List Nat) : List Char := bytesToHex (md5 msg)

/-! ## SHA-256 (FIPS 180-4), used by the repository for record checksums. -/

/-- The 64 SHA-256 round constants (fractional cube roots of the first 64
primes), in decimal. -/
def sha256K : List Nat :=
  [1116352408, 1899447441, 3049323471, 3921009573, 961987163, 1508970993,
   2453635748, 2870763221, 3624381080, 310598401, 607225278, 1426881987,
   1925078388, 2162078206, 2614888103, 3248222580, 3835390401, 4022224774,
   264347078, 604807628, 770255983, 1249150122, 1555081692, 1996064986,
   2554220882, 2821834349, 2952996808, 3210313671, 3336571891, 3584528711,
   113926993, 338241895, 666307205, 773529912, 1294757372, 1396182291,
   1695183700, 1986661051, 2177026350, 2456956037, 2730485921, 2820302411,
   3259730800, 3345764771, 3516065817, 3600352804, 4094571909, 275423344,
   430227734, 506948616, 659060556, 883997877, 958139571, 1322822218,
   1537002063, 1747873779, 1955562222, 2024104815, 2227730452, 2361852424,
   2428436474, 2756734187, 3204031479, 3329325298]

/-- SHA-256 working state: eight 32-bit words. -/
structure SHASt where
  a : Nat
  b : Nat
  c : Nat
  d : Nat
  e : Nat
  f : Nat
  g : Nat
  h : Nat

/-- One step of the SHA-256 message-schedule extension. -/
def shaExtend1 (w : List Nat) (i : Nat) : Nat :=
  let x15 := w.getD (i - 15) 0
  let x2 := w.getD (i - 2) 0
  let s0 := Nat.xor (Nat.xor (rotr32 x15 7) (rotr32 x15 18)) (Nat.shiftRight x15 3)
  let s1 := Nat.xor (Nat.xor (rotr32 x2 17) (rotr32 x2 19)) (Nat.shiftRight x2 10)
  m32 (w.getD (i - 16) 0 + s0 + w.getD (i - 7) 0 + s1)

/-- Extend the message schedule from word `i` up to word 63 (fuel-driven). -/
def shaExtend (fuel : Nat) (i : Nat) (w : List Nat) : List Nat :=
  match fuel with
  | 0 => w
  | fuel + 1 => shaExtend fuel (i + 1) (w ++ [shaExtend1 w i])

/-- The full 64-word message schedule of a block. -/
def shaSchedule (blk : List Nat) : List Nat :=
  shaExtend 48 16 ((List.range 16).map (wordBE blk))

/-- One SHA-256 compression step at index `i`. -/
def shaStep (w : List Nat) (i : Nat) (st : SHASt) : SHASt :=
  let s1 := Nat.xor (Nat.xor (rotr32 st.e 6) (rotr32 st.e 11)) (rotr32 st.e 25)
  let ch := Nat.xor (Nat.land st.e st.f) (Nat.land (not32 st.e) st.g)
  let t1 := m32 (st.h + s1 + ch + sha256K.getD i 0 + w.getD i 0)
  let s0 := Nat.xor (Nat.xor (rotr32 st.a 2) (rotr32 st.a 13)) (rotr32 st.a 22)
  let mj := Nat.xor (Nat.xor (Nat.land st.a st.b) (Nat.land st.a st.c)) (Nat.land st.b st.c)
  let t2 := m32 (s0 + mj)
  ⟨m32 (t1 + t2), st.a, st.b, st.c, m32 (st.d + t1), st.e, st.f, st.g⟩

/-- Run SHA-256 compression steps `i, …, 63` (fuel-driven from 64). -/
def shaRounds (w : List Nat) : Nat → Nat → SHASt → SHASt
  | 0, _, st => st
  | fuel + 1, i, st => shaRounds w fuel (i + 1) (shaStep w i st)

/-- Process one 64-byte block. -/
def shaBlock (st : SHASt) (blk : List Nat) : SHASt :=
  let r := shaRounds (shaSchedule blk) 64 0 st
  ⟨m32 (st.a + r.a), m32 (st.b + r.b), m32 (st.c + r.c), m32 (st.d + r.d),
   m32 (st.e + r.e), m32 (st.f + r.f), m32 (st.g + r.g), m32 (st.h + r.h)⟩

/-- SHA-256 padding: `0x80`, zeros to 56 mod 64, then the 64-bit bit length BE. -/
def shaPad (msg : List Nat) : List Nat :=
  let padLen := (119 - msg.length % 64) % 64 + 1
  msg ++ (128 :: List.replicate (padLen - 1) 0) ++ be8 (8 * msg.length)

/-- SHA-256 digest of a byte string, as 32 bytes. -/
def sha256 (msg : List Nat) : List Nat :=
  let init : SHASt :=
    ⟨1779033703, 3144134277, 1013904242, 2773480762,
     1359893119, 2600822924, 528734635, 1541459225⟩
  let fin := (chunks64 (shaPad msg)).foldl shaBlock init
  be4 fin.a ++ be4 fin.b ++ be4 fin.c ++ be4 fin.d ++
    be4 fin.e ++ be4 fin.f ++ be4 fin.g ++ be4 fin.h

/-- `hashlib.sha256(x).hexdigest()`. -/
def sha256hex (msg : List Nat) : List Char := bytesToHex (sha256 msg)

/-! ## JSON values and `json.dumps`

The dictionaries that the repository ever feeds to `json.dumps` for checksum
purposes are flat: string keys and primitive values.  `dumpsSorted` models
`json.dumps(data, sort_keys=True)` with the default separators `", "` and
`": "`; the `ea` flag models `ensure_ascii` (`True` is Python's default). -/

/-- A primitive JSON value. -/
inductive JPrim where
  | s (v : List Char)
  | i (v : Int)
  | b (v : Bool)
  | null
deriving DecidableEq

/-- A flat JSON object: keys with primitive values, in insertion order. -/
def JDict := List (List Char × JPrim)
deriving DecidableEq

/-- Four lower-case hex digits. -/
def hex4 (n : Nat) : List Char :=
  [hexDig (n / 4096 % 16), hexDig (n / 256 % 16), hexDig (n / 16 % 16), hexDig (n % 16)]

/-- Escape one character inside a JSON string literal, as CPython does. -/
def escChar (ea : Bool) (c : Char) : List Char :=
  let n := c.toNat
  if c = '"' then ['\\', '"']
  else if c = '\\' then ['\\', '\\']
  else if c = '\n' then ['\\', 'n']
  else if c = '\r' then ['\\', 'r']
  else if c = '\t' then ['\\', 't']
  else if n = 8 then ['\\', 'b']
  else if n = 12 then ['\\', 'f']
  else if n < 32 then '\\' :: 'u' :: hex4 n
  else if ea && 126 < n then
    if n < 65536 then '\\' :: 'u' :: hex4 n
    else
      let v := n - 65536
      ('\\' :: 'u' :: hex4 (55296 + v / 1024)) ++ ('\\' :: 'u' :: hex4 (56320 + v % 1024))
  else [c]

/-- A JSON string literal with surrounding quotes. -/
def jstr (ea : Bool) (s : List Char) : List Char :=
  '"' :: s.flatMap (escChar ea) ++ ['"']

/-- Serialize one primitive value. -/
def jprimStr (ea : Bool) : JPrim → List Char
  | .s v => jstr ea v
  | .i v => (toString v).data
  | .b true => chars "true"
  | .b false => chars "false"
  | .null => chars "null"

/-- Insert one entry into a key-sorted object. -/
def insertByKey (kv : List Char × JPrim) : JDict → JDict
  | [] => [kv]
  | kv2 :: rest =>
      if strLe kv.1 kv2.1 then kv :: kv2 :: rest else kv2 :: insertByKey kv rest

/-- Sort an object's entries by key (Python `sort_keys=True`). -/
def sortByKey : JDict → JDict
  | [] => []
  | kv :: rest => insertByKey kv (sortByKey rest)

/-- `json.dumps(d, sort_keys=True)` for a flat object. -/
def dumpsSorted (ea : Bool) (d : JDict) : List Char :=
  '\x7b' :: joinSep (chars ", ")
      ((sortByKey d).map (fun kv => jstr ea kv.1 ++ chars ": " ++ jprimStr ea kv.2))
    ++ ['\x7d']

/-- Python `d[k] = v`: overwrite in place, or append a new key at the end. -/
def dictSet (d : JDict) (k : List Char) (v : JPrim) : JDict :=
  match d with
  | [] => [(k, v)]
  | kv :: rest => if kv.1 = k then (k, v) :: rest else kv :: dictSet rest k v

/-! ## License codec (src/license_manager_core.py)

`generate_license_key` draws its two groups from `uuid4().hex[:8].upper()`;
the embedding takes the two group strings as parameters. -/

/-- Uppercase a string (Python `str.upper()` on the ASCII strings in scope). -/
def pyUpper (s : List Char) : List Char := s.map Char.toUpper

/-- `LicenseGenerator._calculate_checksum`: first four hex digits of the MD5
of the data, uppercased. -/
def licChecksum (data : List Char) : List Char :=
  pyUpper ((md5hex (utf8 data)).take 4)

/-- `LicenseGenerator.generate_license_key`, parameterized by the two random
8-character groups. -/
def generateLicenseKey (g1 g2 : List Char) : List Char :=
  chars "DESI-" ++ g1 ++ ['-'] ++ g2 ++ ['-'] ++ licChecksum (g1 ++ g2)

/-- `LicenseGenerator.validate_license_format`. -/
def validateLicenseFormat (k : List Char) : Bool :=
  if k = [] then false
  else
    match splitDash k with
    | [p0, p1, p2, p3] =>
        decide (p0 = chars "DESI") && decide (p1.length = 8) &&
          decide (p2.length = 8) && decide (p3.length = 4) &&
          decide (p3 = licChecksum (p1 ++ p2))
    | _ => false

/-- `LicenseValidator.should_show_reminder`. -/
def shouldShowReminder (daysLeft : Int) : Bool × String :=
  if daysLeft < 0 then (true, "expired")
  else if daysLeft ≤ 7 then (true, "urgent")
  else if daysLeft ≤ 30 then (true, "warning")
  else if daysLeft ≤ 60 then (true, "info")
  else (false, "none")

/-- `LicenseValidator.should_restrict_features`. -/
def shouldRestrictFeatures (daysLeft : Int) : Bool :=
  decide (daysLeft < 0)

/-- One character of the hex alphabet (either case). -/
def isHexChar (c : Char) : Bool :=
  decide (c ∈ chars "0123456789abcdefABCDEF")

/-- Modelled from the spec: the "4-segment hex-checksum license shape" —
prefix `DESI`, two 8-character hex groups, a 4-character checksum segment
equal to the recomputed checksum.  With `requireHex := false` the hex-alphabet
requirement on the segments is dropped, which is the shape the source code
actually enforces. -/
def specLicenseShape (requireHex : Bool) (s : List Char) : Bool :=
  match splitDash s with
  | [p0, p1, p2, p3] =>
      decide (p0 = chars "DESI") && decide (p1.length = 8) &&
        decide (p2.length = 8) && decide (p3.length = 4) &&
        (!requireHex || (p1.all isHexChar && p2.all isHexChar && p3.all isHexChar)) &&
        decide (p3 = licChecksum (p1 ++ p2))
  | _ => false

/-! ## Encryption model (src/data_encryptor.py)

`_create_cipher` derives a Fernet key with `PBKDF2HMAC(salt = seed[:16] or
(seed*16)[:16], password = SECRET_SEED)`: the key depends on the seed only
through that 16-character salt.  A Fernet blob is modelled by the salt it was
encrypted under together with the JSON document it carries; authenticated
decryption succeeds exactly under the same salt.  A Fernet token is binary
ciphertext, so the `base64.b64decode(...).decode()` fallback paths fail on it;
on a legacy base64 blob they recover the document. -/

/-- The shared secret `SECRET_SEED` compiled into the binary. -/
def secretSeed : List Char := chars "DESI_METABOLOMICS_2025_SECRET_KEY"

/-- Python `seed * 16`. -/
def repeatStr (s : List Char) : Nat → List Char
  | 0 => []
  | n + 1 => s ++ repeatStr s n

/-- The PBKDF2 salt of `_create_cipher`: `seed[:16]` if the seed has at least
16 characters, else `(seed * 16)[:16]`. -/
def deriveSalt (seed : List Char) : List Char :=
  if 16 ≤ seed.length then seed.take 16 else (repeatStr seed 16).take 16

/-- A JSON document as carried by a blob: either the
`{'data': ..., 'checksum': ...}` wrapper built by `encrypt_with_integrity`,
or a bare report object (which has no `data` key). -/
inductive Doc where
  | wrapped (data : JDict) (cks : List Char)
  | plain (d : JDict)
deriving DecidableEq

/-- An encrypted transport blob: a Fernet token under a derived salt, or the
plain base64 fallback encoding. -/
inductive Blob where
  | fern (salt : List Char) (doc : Doc)
  | b64 (doc : Doc)
deriving DecidableEq

/-- Authenticated Fernet decryption under the key derived from `salt`. -/
def fernetDecrypt (salt : List Char) : Blob → Option Doc
  | .fern s d => if s = salt then some d else none
  | .b64 _ => none

/-- `base64.b64decode(blob).decode()` followed by `json.loads`: succeeds only
on the base64 fallback encoding (a Fernet token is not UTF-8 JSON). -/
def b64DecodeJson : Blob → Option Doc
  | .fern _ _ => none
  | .b64 d => some d

/-- `DataEncryptor(machine_id=..., license_key=...)`; `none` models `None`. -/
structure DataEncryptor where
  machineId : Option (List Char)
  licenseKey : Option (List Char)
deriving DecidableEq

/-- A machine-id-only encryptor. -/
def mkMachineEnc (m : List Char) : DataEncryptor := ⟨some m, none⟩

/-- A license-key-only encryptor. -/
def mkLicenseEnc (l : List Char) : DataEncryptor := ⟨none, some l⟩

/-- The configured cipher salts, machine-id cipher first, as `__init__`
builds `self.ciphers` (an empty-string seed is falsy and adds no cipher). -/
def DataEncryptor.ciphers (e : DataEncryptor) : List (List Char) :=
  (match e.machineId with
   | some (c :: cs) => [deriveSalt (c :: cs)]
   | _ => []) ++
  (match e.licenseKey with
   | some (c :: cs) => [deriveSalt (c :: cs)]
   | _ => [])

/-- `DataEncryptor.encrypt`: the first configured cipher, else base64. -/
def DataEncryptor.encrypt (e : DataEncryptor) (doc : Doc) : Blob :=
  match e.ciphers with
  | salt :: _ => .fern salt doc
  | [] => .b64 doc

/-- `DataEncryptor.decrypt`: try every configured cipher, then base64. -/
def DataEncryptor.decrypt (e : DataEncryptor) (blob : Blob) : Option Doc :=
  match firstSome (fun salt => fernetDecrypt salt blob) e.ciphers with
  | some d => some d
  | none => b64DecodeJson blob

/-- `self.machine_id or ''`. -/
def orEmpty : Option (List Char) → List Char
  | some s => s
  | none => []

/-- `DataEncryptor.calculate_checksum`: SHA-256 over the sorted JSON dump,
the machine id (or empty) and the shared secret, pipe-separated. -/
def DataEncryptor.calculateChecksum (e : DataEncryptor) (data : JDict) : List Char :=
  sha256hex (utf8 (dumpsSorted true data ++ chars "|" ++ orEmpty e.machineId ++
    chars "|" ++ secretSeed))

/-- `DataEncryptor.verify_checksum`. -/
def DataEncryptor.verifyChecksum (e : DataEncryptor) (data : JDict)
    (expected : List Char) : Bool :=
  decide (e.calculateChecksum data = expected)

/-- `DataEncryptor.encrypt_with_integrity`: wrap the data with its checksum
and encrypt the wrapper. -/
def DataEncryptor.encryptWithIntegrity (e : DataEncryptor) (data : JDict) : Blob :=
  e.encrypt (.wrapped data (e.calculateChecksum data))

/-- `DataEncryptor.decrypt_and_verify`: decrypt, extract `data`/`checksum`
(`None` unless both are present and the data dict is non-empty), verify. -/
def DataEncryptor.decryptAndVerify (e : DataEncryptor) (blob : Blob) : Option JDict :=
  match e.decrypt blob with
  | none => none
  | some (.plain _) => none
  | some (.wrapped data cks) =>
      if data = [] then none
      else if cks = [] then none
      else if e.verifyChecksum data cks then some data else none

/-- `MultiKeyDecryptor.decrypt`: all known machine ids through
`decrypt_and_verify`, then all known license keys, then the raw base64
fallback (which extracts the `data` field without verifying the checksum). -/
def MultiKeyDecryptor.decrypt (knownMachineIds knownLicenseKeys : List (List Char))
    (blob : Blob) : Option JDict :=
  match firstSome (fun m => (mkMachineEnc m).decryptAndVerify blob) knownMachineIds with
  | some r => some r
  | none =>
    match firstSome (fun l => (mkLicenseEnc l).decryptAndVerify blob) knownLicenseKeys with
    | some r => some r
    | none =>
      match b64DecodeJson blob with
      | some (.wrapped data _) => some data
      | some (.plain d) => some d
      | none => none

/-- `ImportWorker._try_decrypt`: every customer license key first, then every
known machine id, then plain base64; each attempt uses `DataEncryptor.decrypt`
and keeps the first structurally valid (JSON-parsable) plaintext. -/
def tryDecryptImport (licenseKeys machineIds : List (List Char)) (blob : Blob) :
    Option Doc :=
  match firstSome (fun lk => (mkLicenseEnc lk).decrypt blob) licenseKeys with
  | some d => some d
  | none =>
    match firstSome (fun m => (mkMachineEnc m).decrypt blob) machineIds with
    | some d => some d
    | none => b64DecodeJson blob

/-! ## Usage tracker model (src/usage_tracker.py, src/integrity_verifier.py)

`record_usage` computes the record id, timestamp, sample hash, encrypted
details and checksum synchronously and appends to the batch buffer; the
buffer is flushed to the database at size 10 or on a time trigger (the
time trigger is a Boolean parameter here).  The nondeterministic inputs
(`uuid4`, `datetime.now`, host attributes) are parameters. -/

/-- A row of the `usage_records` table. -/
structure URecord where
  recordId : List Char
  timestamp : List Char
  actionType : List Char
  sampleName : List Char
  sampleHash : List Char
  detailsEnc : Blob
  checksum : List Char
  reported : Bool
deriving DecidableEq

/-- Tracker configuration: machine identity and license key of this host,
plus `platform.system()`. -/
structure TrackerCfg where
  machineId : List Char
  licenseKey : List Char
  osName : List Char
deriving DecidableEq

/-- A row of the `usage_stats` daily-aggregate table. -/
structure DailyStat where
  date : List Char
  samplesLoaded : Nat
  samplesExported : Nat
  samplesSplit : Nat
  totalOperations : Nat
deriving DecidableEq

/-- Tracker store: batch buffer plus the two database tables. -/
structure TrackerState where
  buffer : List URecord
  db : List URecord
  daily : List DailyStat
deriving DecidableEq

/-- `UsageTracker._calculate_checksum`: SHA-256 over
`json.dumps(data, sort_keys=True)` (default `ensure_ascii=True`), the machine
id and the shared secret, pipe-separated. -/
def trackerChecksum (machineId : List Char) (d : JDict) : List Char :=
  sha256hex (utf8 (dumpsSorted true d ++ chars "|" ++ machineId ++ chars "|" ++
    secretSeed))

/-- The five-field checksum dictionary built by `record_usage` (and rebuilt
by `verify_integrity` and `IntegrityVerifier.verify_record`). -/
def checksumDataDict (rid ts act sn sh : List Char) : JDict :=
  [(chars "record_id", .s rid), (chars "timestamp", .s ts),
   (chars "action_type", .s act), (chars "sample_name", .s sn),
   (chars "sample_hash", .s sh)]

/-- Modelled from the spec: recomputing the checksum "from exactly the
fields {record_id, timestamp, action_type, subject_hash} together with the
machine identity and the shared secret" (`subject_hash` is the code's
`sample_hash` column), through the tracker's serializer. -/
def specFourFieldChecksum (machineId rid ts act sh : List Char) : List Char :=
  trackerChecksum machineId
    [(chars "record_id", .s rid), (chars "timestamp", .s ts),
     (chars "action_type", .s act), (chars "sample_hash", .s sh)]

/-- The record built by `record_usage`: MD5 sample hash, details dict
augmented with machine id / license key / app version / OS and encrypted
under the tracker cipher (salt `machine_id[:16]`), five-field checksum. -/
def mkUsageRecord (cfg : TrackerCfg) (recordId timestamp actionType sampleName :
    List Char) (details : JDict) : URecord :=
  let sampleHash := md5hex (utf8 sampleName)
  let d1 := dictSet details (chars "machine_id") (.s cfg.machineId)
  let d2 := dictSet d1 (chars "license_key") (.s cfg.licenseKey)
  let d3 := dictSet d2 (chars "app_version") (.s (chars "2.4"))
  let d4 := dictSet d3 (chars "os") (.s cfg.osName)
  { recordId := recordId
    timestamp := timestamp
    actionType := actionType
    sampleName := sampleName
    sampleHash := sampleHash
    detailsEnc := .fern (cfg.machineId.take 16) (.plain d4)
    checksum := trackerChecksum cfg.machineId
      (checksumDataDict recordId timestamp actionType sampleName sampleHash)
    reported := false }

/-- Number of buffered records with a given action type. -/
def countAction (l : List URecord) (a : List Char) : Nat :=
  (l.filter (fun r => decide (r.actionType = a))).length

/-- The `ON CONFLICT(date) DO UPDATE` upsert of the daily-aggregate row. -/
def upsertDaily (daily : List DailyStat) (today : List Char)
    (tot lo ex sp : Nat) : List DailyStat :=
  match daily with
  | [] => [⟨today, lo, ex, sp, tot⟩]
  | d :: rest =>
      if d.date = today then
        ⟨d.date, d.samplesLoaded + lo, d.samplesExported + ex,
          d.samplesSplit + sp, d.totalOperations + tot⟩ :: rest
      else d :: upsertDaily rest today tot lo ex sp

/-- `UsageTracker._flush_batch`: insert every buffered record, upsert the
daily aggregate for today, clear the buffer. -/
def flushBatch (st : TrackerState) (today : List Char) : TrackerState :=
  if st.buffer = [] then st
  else
    { buffer := []
      db := st.db ++ st.buffer
      daily := upsertDaily st.daily today st.buffer.length
        (countAction st.buffer (chars "load_sample"))
        (countAction st.buffer (chars "export_data"))
        (countAction st.buffer (chars "split_metabolites")) }

/-- `UsageTracker.record_usage`: build the record, append it to the batch
buffer, flush when the buffer reaches size 10 or the time trigger fires.
The source returns the record id; the embedding returns the record together
with the new state. -/
def recordUsage (cfg : TrackerCfg) (recordId timestamp actionType sampleName :
    List Char) (details : JDict) (today : List Char) (timeExceeded : Bool)
    (st : TrackerState) : URecord × TrackerState :=
  let r := mkUsageRecord cfg recordId timestamp actionType sampleName details
  let st1 : TrackerState := ⟨st.buffer ++ [r], st.db, st.daily⟩
  if 10 ≤ st1.buffer.length || timeExceeded then (r, flushBatch st1 today)
  else (r, st1)

/-- The per-record check inside `UsageTracker.verify_integrity`: recompute
the five-field checksum with the tracker's own serializer and compare. -/
def rowChecksumOk (machineId : List Char) (r : URecord) : Bool :=
  decide (trackerChecksum machineId
    (checksumDataDict r.recordId r.timestamp r.actionType r.sampleName
      r.sampleHash) = r.checksum)

/-- Result of `UsageTracker.verify_integrity`. -/
structure IntegrityResult where
  totalRecords : Nat
  validRecords : Nat
  invalidRecords : Nat
  integrityOk : Bool
  tamperedIds : List (List Char)
deriving DecidableEq

/-- `UsageTracker.verify_integrity`: recompute every stored record's
checksum; `tampered_ids` keeps only the first ten. -/
def verifyIntegrity (machineId : List Char) (db : List URecord) : IntegrityResult :=
  let invalid := (db.filter (fun r => !rowChecksumOk machineId r)).map
    (fun r => r.recordId)
  { totalRecords := db.length
    validRecords := (db.filter (fun r => rowChecksumOk machineId r)).length
    invalidRecords := invalid.length
    integrityOk := decide (invalid = [])
    tamperedIds := invalid.take 10 }

/-- `IntegrityVerifier.calculate_checksum`: as the tracker's, but with
`ensure_ascii=False` and a caller-supplied secret. -/
def ivChecksum (machineId secret : List Char) (d : JDict) : List Char :=
  sha256hex (utf8 (dumpsSorted false d ++ chars "|" ++ machineId ++ chars "|" ++
    secret))

/-- `IntegrityVerifier.verify_record` (its Boolean component). -/
def ivVerifyRecord (machineId secret : List Char) (r : URecord) : Bool :=
  decide (ivChecksum machineId secret
    (checksumDataDict r.recordId r.timestamp r.actionType r.sampleName
      r.sampleHash) = r.checksum)

/-- Result of `IntegrityVerifier.verify_all_records`. -/
structure IVResult where
  totalRecords : Nat
  validRecords : Nat
  invalidRecords : Nat
  suspiciousRecords : List (List Char)
  integrityOk : Bool
deriving DecidableEq

/-- `IntegrityVerifier.verify_all_records`: classify every stored record by
recomputation; mismatching record ids become the suspicious list. -/
def verifyAllRecords (machineId secret : List Char) (db : List URecord) : IVResult :=
  let suspicious := (db.filter (fun r => !ivVerifyRecord machineId secret r)).map
    (fun r => r.recordId)
  { totalRecords := db.length
    validRecords := (db.filter (fun r => ivVerifyRecord machineId secret r)).length
    invalidRecords := suspicious.length
    suspiciousRecords := suspicious
    integrityOk := decide (suspicious = []) }

/-- Distinct values of a string list (`COUNT(DISTINCT sample_hash)`). -/
def distinctVals : List (List Char) → List (List Char)
  | [] => []
  | x :: xs =>
      let rest := distinctVals xs
      if x ∈ rest then rest else x :: rest

/-- The aggregate structure returned by `get_usage_stats`: counts, daily
rows, the license key, and the truncated machine-id display string — no raw
sample names. -/
structure UsageStatsOut where
  periodDays : Nat
  totalRecords : Nat
  uniqueSamples : Nat
  totalLoads : Nat
  totalExports : Nat
  totalSplits : Nat
  dailyStats : List DailyStat
  licenseKey : List Char
  machineIdDisplay : List Char
deriving DecidableEq

/-- `UsageTracker.get_usage_stats`: SQL aggregation over records whose
timestamp is at least `startDate` (SQLite TEXT comparison on the ISO strings),
with `unique_samples = COUNT(DISTINCT sample_hash)`. -/
def getUsageStats (cfg : TrackerCfg) (days : Nat) (startDate : List Char)
    (db : List URecord) (daily : List DailyStat) : UsageStatsOut :=
  let inWin := db.filter (fun r => strLe startDate r.timestamp)
  { periodDays := days
    totalRecords := inWin.length
    uniqueSamples := (distinctVals (inWin.map (fun r => r.sampleHash))).length
    totalLoads := countAction inWin (chars "load_sample")
    totalExports := countAction inWin (chars "export_data")
    totalSplits := countAction inWin (chars "split_metabolites")
    dailyStats := daily.filter (fun d => strLe startDate d.date)
    licenseKey := cfg.licenseKey
    machineIdDisplay := cfg.machineId.take 16 ++ chars "..." }

/-! ## Admin import model (src/import_report_dialog.py, ImportWorker) -/

/-- A customer row of the admin database. -/
structure Customer where
  customerId : List Char
  name : List Char
  licenseKey : List Char
deriving DecidableEq

/-- A row of the admin `usage_records` table (one imported report). -/
structure AdminUsageRow where
  customerId : List Char
  licenseKey : List Char
  machineId : List Char
  reportDate : List Char
  totalSamplesLoaded : Nat
  totalExports : Nat
  totalSplits : Nat
  uniqueSamples : Nat
  importedAt : List Char
  reportFile : List Char
deriving DecidableEq

/-- The `usage_stats` object of a decrypted report. -/
structure ReportStats where
  totalLoads : Nat
  totalExports : Nat
  totalSplits : Nat
  uniqueSamples : Nat
deriving DecidableEq

/-- The fields of a decrypted, validated report that the import uses. -/
structure ReportData where
  licenseKey : List Char
  machineId : List Char
  reportDate : List Char
  usageStats : ReportStats
deriving DecidableEq

/-- `ImportWorker._check_duplicate`: an existing row with the same
license key, report date and machine id. -/
def checkDuplicate (rep : ReportData) (db : List AdminUsageRow) : Bool :=
  db.any (fun row => decide (row.licenseKey = rep.licenseKey) &&
    decide (row.reportDate = rep.reportDate) &&
    decide (row.machineId = rep.machineId))

/-- The result dictionary built by `ImportWorker._save_to_database`
(`none` fields model keys absent from the dictionary). -/
structure ImportOutcome where
  success : Bool
  isDuplicate : Bool
  errorMsg : Option (List Char)
  customerId : Option (List Char)
  customerName : Option (List Char)
  licenseKey : Option (List Char)
  machineId : Option (List Char)
  reportDate : Option (List Char)
  usageStats : Option ReportStats
deriving DecidableEq

/-- `SELECT customer_id, name FROM customers WHERE license_key = ?`. -/
def findCustomer (lk : List Char) (customers : List Customer) : Option Customer :=
  customers.find? (fun c => decide (c.licenseKey = lk))

/-- `ImportWorker._save_to_database`: locate the customer; on a duplicate
return the fully-detailed duplicate outcome without touching the table;
otherwise insert the usage row.  (The user-facing message texts are stand-ins
for the source's localized strings.) -/
def saveToDatabase (rep : ReportData) (isDup : Bool) (customers : List Customer)
    (db : List AdminUsageRow) (now fileName : List Char) :
    ImportOutcome × List AdminUsageRow :=
  match findCustomer rep.licenseKey customers with
  | none =>
      (⟨false, isDup, some (chars "no customer for license key"), none, none,
        none, none, none, none⟩, db)
  | some cust =>
      if isDup then
        (⟨false, true, some (chars "duplicate report, skipped"),
          some cust.customerId, some cust.name, some rep.licenseKey,
          some rep.machineId, some rep.reportDate, some rep.usageStats⟩, db)
      else
        (⟨true, false, none, some cust.customerId, some cust.name, none,
          some rep.machineId, none, some rep.usageStats⟩,
         db ++ [⟨cust.customerId, rep.licenseKey, rep.machineId, rep.reportDate,
           rep.usageStats.totalLoads, rep.usageStats.totalExports,
           rep.usageStats.totalSplits, rep.usageStats.uniqueSamples, now,
           fileName⟩])

/-- The duplicate-relevant tail of `ImportWorker.run`: check for a duplicate,
then save. -/
def importReportRun (rep : ReportData) (customers : List Customer)
    (db : List AdminUsageRow) (now fileName : List Char) :
    ImportOutcome × List AdminUsageRow :=
  saveToDatabase rep (checkDuplicate rep db) customers db now fileName

/-- `LicenseManager.get_customer_usage`: per-customer sums over the imported
usage rows. -/
structure CustomerUsageAgg where
  totalLoads : Nat
  totalExports : Nat
  totalSplits : Nat
  uniqueSamples : Nat
  reportCount : Nat
deriving DecidableEq

/-- The stored aggregates for one customer, as summed by
`get_customer_usage`. -/
def getCustomerUsage (cid : List Char) (db : List AdminUsageRow) :
    CustomerUsageAgg :=
  let rows := db.filter (fun r => decide (r.customerId = cid))
  ⟨(rows.map (fun r => r.totalSamplesLoaded)).sum,
   (rows.map (fun r => r.totalExports)).sum,
   (rows.map (fun r => r.totalSplits)).sum,
   (rows.map (fun r => r.uniqueSamples)).sum,
   rows.length⟩

/-- Two usage rows that agree on everything the aggregate statistics read:
timestamp, action type and sample hash (not the raw sample name). -/
def sameVisible (r1 r2 : URecord) : Prop :=
  r1.timestamp = r2.timestamp ∧ r1.actionType = r2.actionType ∧
    r1.sampleHash = r2.sampleHash

instance : DecidablePred fun p : URecord × URecord => sameVisible p.1 p.2 :=
  fun _ => by unfold sameVisible; infer_instance

/-- Characters representable without the `ensure_ascii` escaping. -/
def allAscii (s : List Char) : Prop := ∀ c ∈ s, c.toNat ≤ 126

instance (s : List Char) : Decidable (allAscii s) := by
  unfold allAscii; infer_instance

/-! ## Lemmas about `splitDash` and the license checksum alphabet -/

theorem splitDash_ne_nil (s : List Char) : splitDash s ≠ [] := by
  induction s with
  | nil => simp [splitDash]
  | cons c cs ih =>
      unfold splitDash
      by_cases h : c = '-'
      · simp [h]
      · simp only [if_neg h]
        rcases hsp : splitDash cs with _ | ⟨t, rest⟩
        · exact absurd hsp ih
        · simp

theorem splitDash_no_dash (s : List Char) (h : '-' ∉ s) : splitDash s = [s] := by
  induction s with
  | nil => rfl
  | cons c cs ih =>
      have hc : c ≠ '-' := fun hc => h (hc ▸ List.mem_cons_self c cs)
      have hcs : '-' ∉ cs := fun hm => h (List.mem_cons_of_mem c hm)
      unfold splitDash
      rw [if_neg hc, ih hcs]

theorem splitDash_append_dash (a rest : List Char) (h : '-' ∉ a) :
    splitDash (a ++ '-' :: rest) = a :: splitDash rest := by
  induction a with
  | nil => simp [splitDash]
  | cons c cs ih =>
      have hc : c ≠ '-' := fun hc => h (hc ▸ List.mem_cons_self c cs)
      have hcs : '-' ∉ cs := fun hm => h (List.mem_cons_of_mem c hm)
      simp only [List.cons_append, splitDash, hc, if_false, List.append_eq, ih hcs]

theorem hexDig_mem_alphabet (n : Nat) : hexDig n ∈ chars "0123456789abcdef" := by
  rcases Nat.lt_or_ge n 16 with h | h
  · interval_cases n <;> decide
  · unfold hexDig
    rw [List.getD_eq_default]
    · decide
    · simpa using h

theorem bytesToHex_mem_alphabet (bs : List Nat) :
    ∀ c ∈ bytesToHex bs, c ∈ chars "0123456789abcdef" := by
  induction bs with
  | nil => simp [bytesToHex]
  | cons b rest ih =>
      intro c hc
      unfold bytesToHex at hc
      simp only [List.mem_cons] at hc
      rcases hc with hc | hc | hc
      · exact hc ▸ hexDig_mem_alphabet _
      · exact hc ▸ hexDig_mem_alphabet _
      · exact ih c hc

theorem bytesToHex_length (bs : List Nat) :
    (bytesToHex bs).length = 2 * bs.length := by
  induction bs with
  | nil => rfl
  | cons b rest ih =>
      unfold bytesToHex
      simp [ih]
      omega

theorem md5_length (msg : List Nat) : (md5 msg).length = 16 := by
  simp [md5, le4]

theorem licChecksum_length (d : List Char) : (licChecksum d).length = 4 := by
  simp [licChecksum, pyUpper, md5hex, List.length_take, bytesToHex_length, md5_length]

theorem licChecksum_no_dash (d : List Char) : '-' ∉ licChecksum d := by
  intro hm
  unfold licChecksum pyUpper at hm
  rcases List.mem_map.mp hm with ⟨c, hc, hcu⟩
  have hc2 : c ∈ md5hex (utf8 d) := List.mem_of_mem_take hc
  have hc3 : c ∈ chars "0123456789abcdef" := bytesToHex_mem_alphabet _ c hc2
  have : ∀ x ∈ chars "0123456789abcdef", Char.toUpper x ≠ '-' := by decide
  exact this c hc3 hcu

/-! ## Lemmas about `firstSome` and the decryption model -/

theorem firstSome_of_all_none (f : α → Option β) (l : List α)
    (h : ∀ x ∈ l, f x = none) : firstSome f l = none := by
  induction l with
  | nil => rfl
  | cons x xs ih =>
      unfold firstSome
      rw [h x (List.mem_cons_self x xs)]
      exact ih fun y hy => h y (List.mem_cons_of_mem x hy)

theorem firstSome_opts (f : α → Option β) (l : List α) (v : β)
    (h : ∀ x ∈ l, f x = none ∨ f x = some v) :
    firstSome f l = none ∨ firstSome f l = some v := by
  induction l with
  | nil => left; rfl
  | cons x xs ih =>
      unfold firstSome
      rcases h x (List.mem_cons_self x xs) with hx | hx
      · rw [hx]
        exact ih fun y hy => h y (List.mem_cons_of_mem x hy)
      · rw [hx]
        right; rfl

theorem firstSome_hits (f : α → Option β) (l : List α) (v : β)
    (h : ∀ x ∈ l, f x = none ∨ f x = some v) (hx : ∃ x ∈ l, f x = some v) :
    firstSome f l = some v := by
  induction l with
  | nil => rcases hx with ⟨x, hx, _⟩; cases hx
  | cons y ys ih =>
      unfold firstSome
      rcases h y (List.mem_cons_self y ys) with hy | hy
      · rw [hy]
        rcases hx with ⟨x, hmem, hfx⟩
        rcases List.mem_cons.mp hmem with rfl | hmem2
        · rw [hfx] at hy; cases hy
        · exact ih (fun z hz => h z (List.mem_cons_of_mem y hz)) ⟨x, hmem2, hfx⟩
      · rw [hy]

theorem sha256_length (msg : List Nat) : (sha256 msg).length = 32 := by
  simp [sha256, be4]

theorem sha256hex_ne_nil (msg : List Nat) : sha256hex msg ≠ [] := by
  intro h
  have := congrArg List.length h
  rw [sha256hex, bytesToHex_length, sha256_length] at this
  simp at this

theorem enc_calcChecksum_ne_nil (e : DataEncryptor) (d : JDict) :
    e.calculateChecksum d ≠ [] :=
  sha256hex_ne_nil _

theorem ciphers_mkMachineEnc (m : List Char) :
    (mkMachineEnc m).ciphers = if m = [] then [] else [deriveSalt m] := by
  cases m <;> simp [mkMachineEnc, DataEncryptor.ciphers]

theorem ciphers_mkLicenseEnc (l : List Char) :
    (mkLicenseEnc l).ciphers = if l = [] then [] else [deriveSalt l] := by
  cases l <;> simp [mkLicenseEnc, DataEncryptor.ciphers]

theorem decrypt_fern_opts (e : DataEncryptor) (salt : List Char) (d : Doc) :
    e.decrypt (.fern salt d) = none ∨ e.decrypt (.fern salt d) = some d := by
  unfold DataEncryptor.decrypt
  have h : ∀ s ∈ e.ciphers, fernetDecrypt s (.fern salt d) = none ∨
      fernetDecrypt s (.fern salt d) = some d := by
    intro s _
    by_cases hs : salt = s
    · right; simp [fernetDecrypt, hs]
    · left; simp [fernetDecrypt, hs]
  rcases firstSome_opts _ _ _ h with h2 | h2 <;> rw [h2]
  · left; rfl
  · right; rfl

theorem dav_wrapped_opts (e : DataEncryptor) (salt : List Char)
    (payload : JDict) (cks : List Char) :
    e.decryptAndVerify (.fern salt (.wrapped payload cks)) = none ∨
      e.decryptAndVerify (.fern salt (.wrapped payload cks)) = some payload := by
  unfold DataEncryptor.decryptAndVerify
  rcases decrypt_fern_opts e salt (.wrapped payload cks) with h | h <;> rw [h]
  · left; rfl
  · by_cases h1 : payload = []
    · left; simp [h1]
    · by_cases h2 : cks = []
      · left; simp [h1, h2]
      · by_cases h3 : e.verifyChecksum payload cks = true
        · right; simp [h1, h2, h3]
        · left; simp [h1, h2, h3]

theorem dav_none_of_salt_ne (e : DataEncryptor) (salt : List Char) (d : Doc)
    (h : ∀ s ∈ e.ciphers, s ≠ salt) :
    e.decryptAndVerify (.fern salt d) = none := by
  unfold DataEncryptor.decryptAndVerify DataEncryptor.decrypt
  have hall : ∀ s ∈ e.ciphers, fernetDecrypt s (.fern salt d) = none := by
    intro s hs
    have hne : ¬(salt = s) := fun hsalt => h s hs hsalt.symm
    simp [fernetDecrypt, hne]
  rw [firstSome_of_all_none _ _ hall]
  rfl

theorem decrypt_none_of_salt_ne (e : DataEncryptor) (salt : List Char) (d : Doc)
    (h : ∀ s ∈ e.ciphers, s ≠ salt) :
    e.decrypt (.fern salt d) = none := by
  unfold DataEncryptor.decrypt
  have hall : ∀ s ∈ e.ciphers, fernetDecrypt s (.fern salt d) = none := by
    intro s hs
    have hne : ¬(salt = s) := fun hsalt => h s hs hsalt.symm
    simp [fernetDecrypt, hne]
  rw [firstSome_of_all_none _ _ hall]
  rfl

theorem ewi_machine (S : List Char) (hS : S ≠ []) (payload : JDict) :
    (mkMachineEnc S).encryptWithIntegrity payload =
      .fern (deriveSalt S) (.wrapped payload
        ((mkMachineEnc S).calculateChecksum payload)) := by
  unfold DataEncryptor.encryptWithIntegrity DataEncryptor.encrypt
  rw [ciphers_mkMachineEnc, if_neg hS]

theorem ewi_license (S : List Char) (hS : S ≠ []) (payload : JDict) :
    (mkLicenseEnc S).encryptWithIntegrity payload =
      .fern (deriveSalt S) (.wrapped payload
        ((mkLicenseEnc S).calculateChecksum payload)) := by
  unfold DataEncryptor.encryptWithIntegrity DataEncryptor.encrypt
  rw [ciphers_mkLicenseEnc, if_neg hS]

theorem dav_machine_self (S : List Char) (hS : S ≠ []) (payload : JDict)
    (hp : payload ≠ []) :
    (mkMachineEnc S).decryptAndVerify
      ((mkMachineEnc S).encryptWithIntegrity payload) = some payload := by
  rw [ewi_machine S hS payload]
  have hdec : (mkMachineEnc S).decrypt (.fern (deriveSalt S)
      (.wrapped payload ((mkMachineEnc S).calculateChecksum payload))) =
      some (.wrapped payload ((mkMachineEnc S).calculateChecksum payload)) := by
    unfold DataEncryptor.decrypt
    rw [ciphers_mkMachineEnc, if_neg hS]
    simp [firstSome, fernetDecrypt]
  unfold DataEncryptor.decryptAndVerify
  rw [hdec]
  simp [hp, enc_calcChecksum_ne_nil, DataEncryptor.verifyChecksum]

theorem dav_license_self (S : List Char) (hS : S ≠ []) (payload : JDict)
    (hp : payload ≠ []) :
    (mkLicenseEnc S).decryptAndVerify
      ((mkLicenseEnc S).encryptWithIntegrity payload) = some payload := by
  rw [ewi_license S hS payload]
  have hdec : (mkLicenseEnc S).decrypt (.fern (deriveSalt S)
      (.wrapped payload ((mkLicenseEnc S).calculateChecksum payload))) =
      some (.wrapped payload ((mkLicenseEnc S).calculateChecksum payload)) := by
    unfold DataEncryptor.decrypt
    rw [ciphers_mkLicenseEnc, if_neg hS]
    simp [firstSome, fernetDecrypt]
  unfold DataEncryptor.decryptAndVerify
  rw [hdec]
  simp [hp, enc_calcChecksum_ne_nil, DataEncryptor.verifyChecksum]

/-! ## Claims C8 and C9: license format validation -/

set_option maxRecDepth 100000 in
/-- C8 counterexample: validation never checks that the group characters are
hex.  The string `DESI-ZZZZZZZZ-ZZZZZZZZ-<checksum>` (produced by the
generator from two non-hex groups) fails the spec's hex-checksum shape, yet
`validate_license_format` accepts it. -/
theorem claim_C8_counterexample :
    specLicenseShape true (generateLicenseKey (chars "ZZZZZZZZ") (chars "ZZZZZZZZ")) =
      false ∧
    validateLicenseFormat (generateLicenseKey (chars "ZZZZZZZZ") (chars "ZZZZZZZZ")) =
      true := by
  constructor
  · decide
  · decide

/-- C8 (amended): for every string that does not match the relaxed 4-segment
license shape — prefix `DESI`, segment lengths 8/8/4, and a matching
recomputed checksum, with no hex-alphabet requirement on the segment
characters — `validate_license_format` returns false. -/
theorem claim_C8_malformed_rejected (s : List Char)
    (h : specLicenseShape false s = false) :
    validateLicenseFormat s = false := by
  unfold validateLicenseFormat
  by_cases hs : s = []
  · simp [hs]
  · rw [if_neg hs]
    unfold specLicenseShape at h
    rcases hsp : splitDash s with _ | ⟨p0, _ | ⟨p1, _ | ⟨p2, _ | ⟨p3, _ | ⟨p4, t⟩⟩⟩⟩⟩
    all_goals rw [hsp] at h
    all_goals simpa using h

/-- C8 witness: the relaxed shape rejects "HELLO", and so does validation. -/
theorem claim_C8_malformed_rejected_witness :
    validateLicenseFormat (chars "HELLO") = false :=
  claim_C8_malformed_rejected (chars "HELLO") (by decide)

/-- C9: every key produced by the generator validates: for any two
8-character groups without a dash (as produced from `uuid4().hex[:8].upper()`),
the generated `DESI-G1-G2-CHECKSUM` string passes
`validate_license_format`, because validation recomputes the same truncated
MD5 checksum over `G1 ++ G2` that generation stored. -/
theorem claim_C9_validate_generate (g1 g2 : List Char)
    (h1 : g1.length = 8) (h2 : g2.length = 8)
    (hd1 : '-' ∉ g1) (hd2 : '-' ∉ g2) :
    validateLicenseFormat (generateLicenseKey g1 g2) = true := by
  have hkey : generateLicenseKey g1 g2 =
      chars "DESI" ++ '-' :: (g1 ++ '-' :: (g2 ++ '-' :: licChecksum (g1 ++ g2))) := by
    simp [generateLicenseKey, chars]
  have hsplit : splitDash (generateLicenseKey g1 g2) =
      [chars "DESI", g1, g2, licChecksum (g1 ++ g2)] := by
    rw [hkey, splitDash_append_dash _ _ (by decide),
      splitDash_append_dash _ _ hd1, splitDash_append_dash _ _ hd2,
      splitDash_no_dash _ (licChecksum_no_dash _)]
  have hne : generateLicenseKey g1 g2 ≠ [] := by
    rw [hkey]; simp [chars]
  unfold validateLicenseFormat
  rw [if_neg hne, hsplit]
  simp [h1, h2, licChecksum_length]

/-- C9 witness: a concrete generated key validates. -/
theorem claim_C9_validate_generate_witness :
    validateLicenseFormat (generateLicenseKey (chars "AAAAAAAA") (chars "00000000")) =
      true :=
  claim_C9_validate_generate (chars "AAAAAAAA") (chars "00000000")
    (by decide) (by decide) (by decide) (by decide)

/-! ## Claims C6 and C10: reminder levels and feature restriction -/

/-- C6 counterexample: the claim says `days_left = 10` yields reminder level
"urgent", but `should_show_reminder` classifies 10 remaining days as
"warning" ("urgent" is reserved for at most 7 days). -/
theorem claim_C6_counterexample :
    (shouldShowReminder 10).2 = "warning" ∧ (shouldShowReminder 10).2 ≠ "urgent" := by
  constructor
  · rfl
  · decide

/-- C6 (amended): `days_left = -1` yields reminder level "expired" and the
feature-restriction predicate returns true; `days_left = 10` yields reminder
level "warning" (not "urgent", which requires `days_left ≤ 7`), and the
feature-restriction predicate returns false. -/
theorem claim_C6_amended_reminder_and_restriction :
    shouldShowReminder (-1) = (true, "expired") ∧
      shouldRestrictFeatures (-1) = true ∧
      shouldShowReminder 10 = (true, "warning") ∧
      shouldRestrictFeatures 10 = false := by
  refine ⟨rfl, rfl, rfl, rfl⟩

/-- C10: on the exact expiry day (`days_left = 0`) features stay
unrestricted (`should_restrict_features` is strict: `days_left < 0`), and the
reminder level is "urgent", not "expired". -/
theorem claim_C10_expiry_day_boundary :
    shouldRestrictFeatures 0 = false ∧
      shouldShowReminder 0 = (true, "urgent") ∧
      (shouldShowReminder 0).2 ≠ "expired" := by
  refine ⟨rfl, rfl, by decide⟩

theorem multikey_none_of_salt_ne (mids lks : List (List Char)) (salt : List Char)
    (d : Doc) (h : ∀ c ∈ mids ++ lks, deriveSalt c ≠ salt) :
    MultiKeyDecryptor.decrypt mids lks (.fern salt d) = none := by
  have hm : ∀ m ∈ mids, (mkMachineEnc m).decryptAndVerify (.fern salt d) = none := by
    intro m hmem
    refine dav_none_of_salt_ne _ _ _ ?_
    intro s hs
    rw [ciphers_mkMachineEnc] at hs
    by_cases hnil : m = []
    · rw [if_pos hnil] at hs; cases hs
    · rw [if_neg hnil, List.mem_singleton] at hs
      subst hs
      exact h m (List.mem_append_left _ hmem)
  have hl : ∀ l ∈ lks, (mkLicenseEnc l).decryptAndVerify (.fern salt d) = none := by
    intro l hmem
    refine dav_none_of_salt_ne _ _ _ ?_
    intro s hs
    rw [ciphers_mkLicenseEnc] at hs
    by_cases hnil : l = []
    · rw [if_pos hnil] at hs; cases hs
    · rw [if_neg hnil, List.mem_singleton] at hs
      subst hs
      exact h l (List.mem_append_right _ hmem)
  unfold MultiKeyDecryptor.decrypt
  rw [firstSome_of_all_none _ _ hm, firstSome_of_all_none _ _ hl]
  rfl

/-! ## Claim C1: multi-key import success condition -/

set_option maxRecDepth 1000000 in
/-- C1 counterexample: the key is derived from the seed only through
`seed[:16]` (with short seeds repeated), so the seeds `"abab"` and `"ab"`
derive the same Fernet key.  A report encrypted under the license-key seed
`"abab"` is decrypted by `MultiKeyDecryptor.decrypt` from a candidate list
containing only `"ab"` — a false positive: the import succeeds although the
encrypting seed is not among the candidates. -/
theorem claim_C1_counterexample :
    chars "abab" ∉ [chars "ab"] ∧
      MultiKeyDecryptor.decrypt [] [chars "ab"]
        ((mkLicenseEnc (chars "abab")).encryptWithIntegrity
          [(chars "test", .s (chars "data1"))]) =
        some [(chars "test", .s (chars "data1"))] := by
  constructor
  · decide
  · decide

/-- C1 (amended): with Fernet available, a report encrypted with seed `S` by
`encrypt_with_integrity` is recovered by `MultiKeyDecryptor.decrypt` whenever
`S` is among the matching-flavour candidates, and the import returns `None`
whenever every candidate's derived salt (the first 16 characters of the
repetition-padded seed) differs from `S`'s.  Candidate equality is only
enforced up to that derived salt, so a candidate other than `S` sharing its
first 16 padded characters can also decrypt (see the counterexample). -/
theorem claim_C1_multikey_import (S : List Char) (payload : JDict)
    (mids lks : List (List Char)) (hS : S ≠ []) (hp : payload ≠ []) :
    (S ∈ mids →
      MultiKeyDecryptor.decrypt mids lks
        ((mkMachineEnc S).encryptWithIntegrity payload) = some payload) ∧
    (S ∈ lks →
      MultiKeyDecryptor.decrypt mids lks
        ((mkLicenseEnc S).encryptWithIntegrity payload) = some payload) ∧
    ((∀ c ∈ mids ++ lks, deriveSalt c ≠ deriveSalt S) →
      MultiKeyDecryptor.decrypt mids lks
        ((mkMachineEnc S).encryptWithIntegrity payload) = none ∧
      MultiKeyDecryptor.decrypt mids lks
        ((mkLicenseEnc S).encryptWithIntegrity payload) = none) := by
  refine ⟨?_, ?_, ?_⟩
  · intro hmem
    rw [ewi_machine S hS payload]
    have hopts : ∀ m ∈ mids, (mkMachineEnc m).decryptAndVerify
        (.fern (deriveSalt S) (.wrapped payload
          ((mkMachineEnc S).calculateChecksum payload))) = none ∨
        (mkMachineEnc m).decryptAndVerify
        (.fern (deriveSalt S) (.wrapped payload
          ((mkMachineEnc S).calculateChecksum payload))) = some payload :=
      fun m _ => dav_wrapped_opts _ _ _ _
    have hhit : firstSome (fun m => (mkMachineEnc m).decryptAndVerify
        (.fern (deriveSalt S) (.wrapped payload
          ((mkMachineEnc S).calculateChecksum payload)))) mids = some payload := by
      refine firstSome_hits _ _ _ hopts ⟨S, hmem, ?_⟩
      have := dav_machine_self S hS payload hp
      rwa [ewi_machine S hS payload] at this
    unfold MultiKeyDecryptor.decrypt
    rw [hhit]
  · intro hmem
    rw [ewi_license S hS payload]
    have hopts : ∀ m ∈ mids, (mkMachineEnc m).decryptAndVerify
        (.fern (deriveSalt S) (.wrapped payload
          ((mkLicenseEnc S).calculateChecksum payload))) = none ∨
        (mkMachineEnc m).decryptAndVerify
        (.fern (deriveSalt S) (.wrapped payload
          ((mkLicenseEnc S).calculateChecksum payload))) = some payload :=
      fun m _ => dav_wrapped_opts _ _ _ _
    have hlic : firstSome (fun l => (mkLicenseEnc l).decryptAndVerify
        (.fern (deriveSalt S) (.wrapped payload
          ((mkLicenseEnc S).calculateChecksum payload)))) lks = some payload := by
      refine firstSome_hits _ _ _ (fun l _ => dav_wrapped_opts _ _ _ _) ⟨S, hmem, ?_⟩
      have := dav_license_self S hS payload hp
      rwa [ewi_license S hS payload] at this
    unfold MultiKeyDecryptor.decrypt
    rcases firstSome_opts _ mids payload hopts with hm | hm
    · rw [hm, hlic]
    · rw [hm]
  · intro hsalt
    constructor
    · rw [ewi_machine S hS payload]
      exact multikey_none_of_salt_ne _ _ _ _ hsalt
    · rw [ewi_license S hS payload]
      exact multikey_none_of_salt_ne _ _ _ _ hsalt

/-- C1 witness: a machine-id report is recovered when its seed is a
candidate. -/
theorem claim_C1_multikey_import_witness :
    MultiKeyDecryptor.decrypt [chars "machine-001-XYZAB"] []
      ((mkMachineEnc (chars "machine-001-XYZAB")).encryptWithIntegrity
        [(chars "test", .s (chars "data1"))]) =
      some [(chars "test", .s (chars "data1"))] :=
  (claim_C1_multikey_import (chars "machine-001-XYZAB")
    [(chars "test", .s (chars "data1"))] [chars "machine-001-XYZAB"] []
    (by decide) (by decide)).1 (by decide)

/-! ## Claim C3: import tries license keys first -/

theorem decrypt_lic_self (lk salt : List Char) (doc : Doc) (hlk : lk ≠ [])
    (hsalt : deriveSalt lk = salt) :
    (mkLicenseEnc lk).decrypt (.fern salt doc) = some doc := by
  unfold DataEncryptor.decrypt
  rw [ciphers_mkLicenseEnc, if_neg hlk]
  simp [firstSome, fernetDecrypt, hsalt]

/-- C3: `ImportWorker._try_decrypt` iterates all customer license keys first
and returns the first structurally valid decryption, falling back to the
known machine identities and then to plain base64 only when no license key
succeeded; in particular, whenever any license-key candidate can decrypt a
Fernet blob, the returned payload is the license-key result, machine-identity
candidates notwithstanding. -/
theorem claim_C3_license_keys_first (lks mids : List (List Char)) (blob : Blob) :
    (∀ d, firstSome (fun lk => (mkLicenseEnc lk).decrypt blob) lks = some d →
      tryDecryptImport lks mids blob = some d) ∧
    (firstSome (fun lk => (mkLicenseEnc lk).decrypt blob) lks = none →
      tryDecryptImport lks mids blob =
        match firstSome (fun m => (mkMachineEnc m).decrypt blob) mids with
        | some d => some d
        | none => b64DecodeJson blob) ∧
    (∀ salt doc, blob = .fern salt doc →
      (∃ lk ∈ lks, lk ≠ [] ∧ deriveSalt lk = salt) →
      tryDecryptImport lks mids blob = some doc) := by
  refine ⟨?_, ?_, ?_⟩
  · intro d h
    unfold tryDecryptImport
    rw [h]
  · intro h
    unfold tryDecryptImport
    rw [h]
  · rintro salt doc rfl ⟨lk, hmem, hlk, hsalt⟩
    have hfs : firstSome (fun l => (mkLicenseEnc l).decrypt (.fern salt doc)) lks =
        some doc := by
      refine firstSome_hits _ _ _ (fun l _ => decrypt_fern_opts _ _ _)
        ⟨lk, hmem, decrypt_lic_self lk salt doc hlk hsalt⟩
    unfold tryDecryptImport
    rw [hfs]

/-- C3 witness: with one license-key candidate matching the blob and no
machine ids, the import returns the license-key decryption. -/
theorem claim_C3_license_keys_first_witness :
    tryDecryptImport [chars "DESI-AAAAAAAA-BBBBBBBB-1234"] []
      (.fern (deriveSalt (chars "DESI-AAAAAAAA-BBBBBBBB-1234"))
        (.plain [(chars "report_date", .s (chars "2025-01-01"))])) =
      some (.plain [(chars "report_date", .s (chars "2025-01-01"))]) :=
  (claim_C3_license_keys_first [chars "DESI-AAAAAAAA-BBBBBBBB-1234"] [] _).1
    _ (by decide)

/-! ## Claim C4: duplicate report import -/

/-- C4: when the decrypted report's `(license_key, machine_id, report_date)`
triple matches an existing imported row, the import reports a fully-detailed
duplicate outcome (customer, license key, machine id, report date and usage
stats), does not insert a row, and every customer's stored aggregates are
exactly what they were before. -/
theorem claim_C4_duplicate_import (rep : ReportData) (customers : List Customer)
    (db : List AdminUsageRow) (now fileName : List Char) (cust : Customer)
    (hdup : checkDuplicate rep db = true)
    (hcust : findCustomer rep.licenseKey customers = some cust) :
    (importReportRun rep customers db now fileName).1.success = false ∧
    (importReportRun rep customers db now fileName).1.isDuplicate = true ∧
    (importReportRun rep customers db now fileName).1.customerId =
      some cust.customerId ∧
    (importReportRun rep customers db now fileName).1.customerName =
      some cust.name ∧
    (importReportRun rep customers db now fileName).1.licenseKey =
      some rep.licenseKey ∧
    (importReportRun rep customers db now fileName).1.machineId =
      some rep.machineId ∧
    (importReportRun rep customers db now fileName).1.reportDate =
      some rep.reportDate ∧
    (importReportRun rep customers db now fileName).1.usageStats =
      some rep.usageStats ∧
    (importReportRun rep customers db now fileName).2 = db ∧
    (∀ cid, getCustomerUsage cid (importReportRun rep customers db now fileName).2 =
      getCustomerUsage cid db) := by
  unfold importReportRun saveToDatabase
  rw [hdup, hcust]
  simp

/-- C4 witness: re-importing a concrete already-imported report is flagged
duplicate, fails, and leaves the table untouched. -/
theorem claim_C4_duplicate_import_witness :
    (importReportRun
        ⟨chars "LIC-1", chars "M-1", chars "2025-01-01", ⟨1, 2, 3, 4⟩⟩
        [⟨chars "C1", chars "Acme", chars "LIC-1"⟩]
        [⟨chars "C1", chars "LIC-1", chars "M-1", chars "2025-01-01",
          1, 2, 3, 4, chars "t0", chars "r.enc"⟩]
        (chars "t1") (chars "r.enc")).1.isDuplicate = true ∧
    (importReportRun
        ⟨chars "LIC-1", chars "M-1", chars "2025-01-01", ⟨1, 2, 3, 4⟩⟩
        [⟨chars "C1", chars "Acme", chars "LIC-1"⟩]
        [⟨chars "C1", chars "LIC-1", chars "M-1", chars "2025-01-01",
          1, 2, 3, 4, chars "t0", chars "r.enc"⟩]
        (chars "t1") (chars "r.enc")).2 =
      [⟨chars "C1", chars "LIC-1", chars "M-1", chars "2025-01-01",
        1, 2, 3, 4, chars "t0", chars "r.enc"⟩] := by
  have h := claim_C4_duplicate_import
    ⟨chars "LIC-1", chars "M-1", chars "2025-01-01", ⟨1, 2, 3, 4⟩⟩
    [⟨chars "C1", chars "Acme", chars "LIC-1"⟩]
    [⟨chars "C1", chars "LIC-1", chars "M-1", chars "2025-01-01",
      1, 2, 3, 4, chars "t0", chars "r.enc"⟩]
    (chars "t1") (chars "r.enc") ⟨chars "C1", chars "Acme", chars "LIC-1"⟩
    (by decide) (by decide)
  exact ⟨h.2.1, h.2.2.2.2.2.2.2.2.1⟩

/-! ## Lemmas about the tracker model -/

theorem recordUsage_fst (cfg : TrackerCfg) (rid ts act sn : List Char)
    (details : JDict) (today : List Char) (tex : Bool) (st : TrackerState) :
    (recordUsage cfg rid ts act sn details today tex st).1 =
      mkUsageRecord cfg rid ts act sn details := by
  unfold recordUsage
  dsimp only
  split <;> rfl

theorem rowChecksumOk_mkRecord (cfg : TrackerCfg) (rid ts act sn : List Char)
    (details : JDict) :
    rowChecksumOk cfg.machineId (mkUsageRecord cfg rid ts act sn details) = true := by
  unfold rowChecksumOk mkUsageRecord
  simp

theorem mem_flushBatch_db (st : TrackerState) (today : List Char) (r : URecord)
    (h : r ∈ st.buffer ∨ r ∈ st.db) : r ∈ (flushBatch st today).db := by
  unfold flushBatch
  split
  · next hb =>
      rcases h with h | h
      · rw [hb] at h; cases h
      · exact h
  · dsimp only
    rcases h with h | h
    · exact List.mem_append_right _ h
    · exact List.mem_append_left _ h

theorem recordUsage_mem (cfg : TrackerCfg) (rid ts act sn : List Char)
    (details : JDict) (today : List Char) (tex : Bool) (st : TrackerState) :
    (recordUsage cfg rid ts act sn details today tex st).1 ∈
        (recordUsage cfg rid ts act sn details today tex st).2.buffer ∨
      (recordUsage cfg rid ts act sn details today tex st).1 ∈
        (recordUsage cfg rid ts act sn details today tex st).2.db := by
  unfold recordUsage
  dsimp only
  split
  · right
    refine mem_flushBatch_db _ _ _ (Or.inl ?_)
    exact List.mem_append_right _ (List.mem_singleton.mpr rfl)
  · left
    exact List.mem_append_right _ (List.mem_singleton.mpr rfl)

theorem escChar_ascii (c : Char) (h : c.toNat ≤ 126) :
    escChar true c = escChar false c := by
  unfold escChar
  have h2 : ¬(126 < c.toNat) := by omega
  simp [h2]

theorem flatMap_escChar_ascii (s : List Char) (h : allAscii s) :
    s.flatMap (escChar true) = s.flatMap (escChar false) := by
  induction s with
  | nil => rfl
  | cons c cs ih =>
      simp only [List.flatMap_cons]
      rw [escChar_ascii c (h c (List.mem_cons_self c cs)),
        ih fun x hx => h x (List.mem_cons_of_mem c hx)]

theorem jstr_ascii (s : List Char) (h : allAscii s) : jstr true s = jstr false s := by
  unfold jstr
  rw [flatMap_escChar_ascii s h]

theorem sortByKey_cdd (rid ts act sn sh : List Char) :
    sortByKey (checksumDataDict rid ts act sn sh) =
      [(chars "action_type", .s act), (chars "record_id", .s rid),
       (chars "sample_hash", .s sh), (chars "sample_name", .s sn),
       (chars "timestamp", .s ts)] := by
  rfl

theorem dumpsSorted_cdd_ascii (rid ts act sn sh : List Char)
    (h1 : allAscii rid) (h2 : allAscii ts) (h3 : allAscii act)
    (h4 : allAscii sn) (h5 : allAscii sh) :
    dumpsSorted true (checksumDataDict rid ts act sn sh) =
      dumpsSorted false (checksumDataDict rid ts act sn sh) := by
  unfold dumpsSorted
  rw [sortByKey_cdd]
  simp only [List.map_cons, List.map_nil, jprimStr, joinSep]
  rw [jstr_ascii _ (by decide : allAscii (chars "action_type")),
    jstr_ascii _ (by decide : allAscii (chars "record_id")),
    jstr_ascii _ (by decide : allAscii (chars "sample_hash")),
    jstr_ascii _ (by decide : allAscii (chars "sample_name")),
    jstr_ascii _ (by decide : allAscii (chars "timestamp")),
    jstr_ascii _ h3, jstr_ascii _ h1, jstr_ascii _ h5, jstr_ascii _ h4,
    jstr_ascii _ h2]

theorem allAscii_md5hex (msg : List Nat) : allAscii (md5hex msg) := by
  intro c hc
  have hmem := bytesToHex_mem_alphabet _ c hc
  have h2 : ∀ x ∈ chars "0123456789abcdef", x.toNat ≤ 126 := by decide
  exact h2 c hmem

theorem ivVerify_mkRecord (cfg : TrackerCfg) (rid ts act sn : List Char)
    (details : JDict) (h1 : allAscii rid) (h2 : allAscii ts)
    (h3 : allAscii act) (h4 : allAscii sn) :
    ivVerifyRecord cfg.machineId secretSeed
      (mkUsageRecord cfg rid ts act sn details) = true := by
  unfold ivVerifyRecord mkUsageRecord ivChecksum trackerChecksum
  rw [← dumpsSorted_cdd_ascii rid ts act sn (md5hex (utf8 sn)) h1 h2 h3 h4
    (allAscii_md5hex _)]
  simp

theorem forall2_filter_ts (start : List Char) (l1 l2 : List URecord)
    (h : List.Forall₂ sameVisible l1 l2) :
    List.Forall₂ sameVisible (l1.filter fun r => strLe start r.timestamp)
      (l2.filter fun r => strLe start r.timestamp) := by
  induction h with
  | nil => exact List.Forall₂.nil
  | cons hab hrest ih =>
      rename_i a b t1 t2
      simp only [List.filter_cons, hab.1]
      cases hsb : strLe start b.timestamp
      · simpa using ih
      · simpa using List.Forall₂.cons hab ih

theorem forall2_map_hash (l1 l2 : List URecord)
    (h : List.Forall₂ sameVisible l1 l2) :
    l1.map (fun r => r.sampleHash) = l2.map (fun r => r.sampleHash) := by
  induction h with
  | nil => rfl
  | cons hab hrest ih =>
      simp only [List.map_cons]
      rw [hab.2.2, ih]

theorem forall2_countAction (l1 l2 : List URecord)
    (h : List.Forall₂ sameVisible l1 l2) (a : List Char) :
    countAction l1 a = countAction l2 a := by
  induction h with
  | nil => rfl
  | cons hab hrest ih =>
      rename_i x y t1 t2
      unfold countAction at ih ⊢
      simp only [List.filter_cons, hab.2.1]
      cases hd : decide (y.actionType = a)
      · simpa using ih
      · simpa using ih

/-! ## Claim C2: checksum field set -/

set_option maxRecDepth 1000000 in
/-- C2 counterexample: the stored checksum of a record created by
`record_usage` is computed over five fields including the raw
`sample_name`, so recomputing it from only
{record_id, timestamp, action_type, sample_hash} plus the machine identity
and shared secret does not reproduce the stored value. -/
theorem claim_C2_counterexample :
    specFourFieldChecksum (chars "machine-01") (chars "r1") (chars "t1")
        (chars "load_sample") (md5hex (utf8 (chars "s1"))) ≠
      (mkUsageRecord ⟨chars "machine-01", chars "DESI-TEST", chars "Linux"⟩
        (chars "r1") (chars "t1") (chars "load_sample") (chars "s1") []).checksum := by
  decide

/-- C2 (amended): recomputing the checksum from exactly the five fields
{record_id, timestamp, action_type, sample_name, sample_hash} together with
the machine identity and the shared secret yields the stored checksum of
every record created by `record_usage`; and every stored record whose
recomputation does not match is classified suspicious by
`verify_all_records`. -/
theorem claim_C2_checksum_fields (cfg : TrackerCfg) (rid ts act sn : List Char)
    (details : JDict) (machineId secret : List Char) (db : List URecord)
    (r : URecord) :
    (mkUsageRecord cfg rid ts act sn details).checksum =
      trackerChecksum cfg.machineId
        (checksumDataDict rid ts act sn (md5hex (utf8 sn))) ∧
    (r ∈ db → ivVerifyRecord machineId secret r = false →
      r.recordId ∈ (verifyAllRecords machineId secret db).suspiciousRecords) := by
  constructor
  · rfl
  · intro hmem hbad
    show r.recordId ∈ (db.filter fun x => !ivVerifyRecord machineId secret x).map
      (fun x => x.recordId)
    exact List.mem_map.mpr ⟨r, List.mem_filter.mpr ⟨hmem, by simp [hbad]⟩, rfl⟩

set_option maxRecDepth 1000000 in
/-- C2 witness: the five-field recomputation matches a concrete record, and a
concrete record with a forged checksum lands in the suspicious list. -/
theorem claim_C2_checksum_fields_witness :
    (mkUsageRecord ⟨chars "machine-01", chars "DESI-TEST", chars "Linux"⟩
        (chars "r1") (chars "t1") (chars "load_sample") (chars "s1") []).checksum =
      trackerChecksum (chars "machine-01")
        (checksumDataDict (chars "r1") (chars "t1") (chars "load_sample")
          (chars "s1") (md5hex (utf8 (chars "s1")))) ∧
    (chars "r1") ∈ (verifyAllRecords (chars "m") (chars "sec")
      [⟨chars "r1", chars "t1", chars "load_sample", chars "s1", chars "h1",
        .b64 (.plain []), chars "bad", false⟩]).suspiciousRecords := by
  constructor
  · exact (claim_C2_checksum_fields
      ⟨chars "machine-01", chars "DESI-TEST", chars "Linux"⟩ (chars "r1")
      (chars "t1") (chars "load_sample") (chars "s1") [] (chars "m") (chars "sec")
      [] ⟨chars "r1", chars "t1", chars "load_sample", chars "s1", chars "h1",
        .b64 (.plain []), chars "bad", false⟩).1
  · exact (claim_C2_checksum_fields
      ⟨chars "machine-01", chars "DESI-TEST", chars "Linux"⟩ (chars "r1")
      (chars "t1") (chars "load_sample") (chars "s1") [] (chars "m") (chars "sec")
      [⟨chars "r1", chars "t1", chars "load_sample", chars "s1", chars "h1",
        .b64 (.plain []), chars "bad", false⟩]
      ⟨chars "r1", chars "t1", chars "load_sample", chars "s1", chars "h1",
        .b64 (.plain []), chars "bad", false⟩).2
      (List.mem_singleton.mpr rfl) (by decide)

/-! ## Claim C5: verification succeeds after append and after flush -/

/-- C5: the record created by `record_usage` passes the tracker's per-record
checksum verification immediately, it is still present (field-for-field) in
the database after the batch buffer is flushed, and — whenever its fields
need no `ensure_ascii` escaping — `IntegrityVerifier.verify_record` accepts
it as well. -/
theorem claim_C5_verify_after_append_and_flush (cfg : TrackerCfg)
    (rid ts act sn : List Char) (details : JDict) (today : List Char)
    (tex : Bool) (st : TrackerState) :
    rowChecksumOk cfg.machineId
      (recordUsage cfg rid ts act sn details today tex st).1 = true ∧
    ((recordUsage cfg rid ts act sn details today tex st).1 ∈
        (recordUsage cfg rid ts act sn details today tex st).2.buffer ∨
      (recordUsage cfg rid ts act sn details today tex st).1 ∈
        (recordUsage cfg rid ts act sn details today tex st).2.db) ∧
    (recordUsage cfg rid ts act sn details today tex st).1 ∈
      (flushBatch (recordUsage cfg rid ts act sn details today tex st).2 today).db ∧
    (allAscii rid → allAscii ts → allAscii act → allAscii sn →
      ivVerifyRecord cfg.machineId secretSeed
        (recordUsage cfg rid ts act sn details today tex st).1 = true) := by
  refine ⟨?_, recordUsage_mem cfg rid ts act sn details today tex st, ?_, ?_⟩
  · rw [recordUsage_fst]
    exact rowChecksumOk_mkRecord cfg rid ts act sn details
  · exact mem_flushBatch_db _ _ _ (recordUsage_mem cfg rid ts act sn details today tex st)
  · intro h1 h2 h3 h4
    rw [recordUsage_fst]
    exact ivVerify_mkRecord cfg rid ts act sn details h1 h2 h3 h4

set_option maxRecDepth 1000000 in
/-- C5 witness: a concrete record verifies right after the append and again
after the flush, under both verifiers. -/
theorem claim_C5_verify_witness :
    rowChecksumOk (chars "machine-01")
      (recordUsage ⟨chars "machine-01", chars "DESI-TEST", chars "Linux"⟩
        (chars "r1") (chars "t1") (chars "load_sample") (chars "s1") []
        (chars "2025-01-01") false ⟨[], [], []⟩).1 = true ∧
    (recordUsage ⟨chars "machine-01", chars "DESI-TEST", chars "Linux"⟩
        (chars "r1") (chars "t1") (chars "load_sample") (chars "s1") []
        (chars "2025-01-01") false ⟨[], [], []⟩).1 ∈
      (flushBatch (recordUsage ⟨chars "machine-01", chars "DESI-TEST",
        chars "Linux"⟩ (chars "r1") (chars "t1") (chars "load_sample")
        (chars "s1") [] (chars "2025-01-01") false ⟨[], [], []⟩).2
        (chars "2025-01-01")).db ∧
    ivVerifyRecord (chars "machine-01") secretSeed
      (recordUsage ⟨chars "machine-01", chars "DESI-TEST", chars "Linux"⟩
        (chars "r1") (chars "t1") (chars "load_sample") (chars "s1") []
        (chars "2025-01-01") false ⟨[], [], []⟩).1 = true := by
  have h := claim_C5_verify_after_append_and_flush
    ⟨chars "machine-01", chars "DESI-TEST", chars "Linux"⟩ (chars "r1")
    (chars "t1") (chars "load_sample") (chars "s1") [] (chars "2025-01-01")
    false ⟨[], [], []⟩
  exact ⟨h.1, h.2.2.1, h.2.2.2 (by decide) (by decide) (by decide) (by decide)⟩

/-! ## Claim C7: raw subject names and aggregate statistics -/

/-- C7 counterexample: the raw sample name is stored in the plaintext
`sample_name` column of the ledger, outside the encrypted details blob: after
a flush, the stored row of a concrete `record_usage` call carries the raw
name as its `sample_name` field. -/
theorem claim_C7_counterexample :
    ((flushBatch (recordUsage ⟨chars "machine-01", chars "DESI-TEST",
        chars "Linux"⟩ (chars "r1") (chars "t1") (chars "load_sample")
        (chars "secret_sample") [] (chars "2025-01-01") false
        ⟨[], [], []⟩).2 (chars "2025-01-01")).db.map fun r => r.sampleName) =
      [chars "secret_sample"] := by
  rfl

/-- C7 (amended): `record_usage` stores the raw sample name in the plaintext
`sample_name` column (so the raw name does leave the encrypted details blob),
but the aggregate statistics expose only `sample_hash`-based counts: the
output of `get_usage_stats` is unchanged when the stored records are replaced
by records agreeing only on timestamp, action type and sample hash. -/
theorem claim_C7_stats_hash_only (cfg : TrackerCfg) (rid ts act sn : List Char)
    (details : JDict) (today : List Char) (tex : Bool) (st : TrackerState) :
    ((recordUsage cfg rid ts act sn details today tex st).1).sampleName = sn ∧
    (∀ days startDate db1 db2 daily, List.Forall₂ sameVisible db1 db2 →
      getUsageStats cfg days startDate db1 daily =
        getUsageStats cfg days startDate db2 daily) := by
  constructor
  · rw [recordUsage_fst]
    rfl
  · intro days startDate db1 db2 daily h
    have hfil := forall2_filter_ts startDate db1 db2 h
    unfold getUsageStats
    dsimp only
    rw [hfil.length_eq, forall2_map_hash _ _ hfil,
      forall2_countAction _ _ hfil (chars "load_sample"),
      forall2_countAction _ _ hfil (chars "export_data"),
      forall2_countAction _ _ hfil (chars "split_metabolites")]

/-- C7 witness: two stores whose single records differ only in the raw
sample name produce identical aggregate statistics. -/
theorem claim_C7_stats_hash_only_witness :
    getUsageStats ⟨chars "machine-01", chars "DESI-TEST", chars "Linux"⟩ 30
      (chars "2025-01-01")
      [⟨chars "r1", chars "t1", chars "load_sample", chars "alice_sample",
        chars "h1", .b64 (.plain []), chars "c", false⟩] [] =
    getUsageStats ⟨chars "machine-01", chars "DESI-TEST", chars "Linux"⟩ 30
      (chars "2025-01-01")
      [⟨chars "r1", chars "t1", chars "load_sample", chars "bob_sample",
        chars "h1", .b64 (.plain []), chars "c", false⟩] [] :=
  (claim_C7_stats_hash_only ⟨chars "machine-01", chars "DESI-TEST",
      chars "Linux"⟩ (chars "r") (chars "t") (chars "a") (chars "s") []
      (chars "d") false ⟨[], [], []⟩).2 30 (chars "2025-01-01") _ _ []
    (List.Forall₂.cons ⟨rfl, rfl, rfl⟩ List.Forall₂.nil)

end DESI
